import Mathlib

/-!
Shallow embedding of the core of `python-financier`
(`pythonfinancier/financier.py` over `pythonfinancier/easycouchdb.py`).

JSON documents are association lists of string keys and values; the remote
CouchDB store is an oracle giving the response of each HTTP call; every
operation is a state-passing function that also records the trace of store
calls it issues (queries, point lookups, inserts, saves).  Python exceptions
become an explicit error type threaded through `Except`.  The random
`uuid.uuid4()` draws are modelled by a supply of identifier strings carried
in the session state, consumed in program order.
-/

namespace PyFinancier

/-- JSON-ish values appearing in documents exchanged with the store. -/
inductive Val : Type where
  | str : String → Val
  | num : Int → Val
  | bool : Bool → Val
  | null : Val
  | obj : List (String × Val) → Val
  | arr : List Val → Val
deriving Repr

/-- A JSON document: a Python dict, as an ordered association list. -/
abbrev Doc := List (String × Val)

/-- Lookup of a key in a dict (`d[k]` / `k in d`). -/
def getKey? {α : Type} : List (String × α) → String → Option α
  | [], _ => none
  | p :: rest, k => if p.1 == k then some p.2 else getKey? rest k

/-- Python dict assignment `d[k] = v`: replace in place, or append if new. -/
def setKey {α : Type} : List (String × α) → String → α → List (String × α)
  | [], k, v => [(k, v)]
  | p :: rest, k, v => if p.1 == k then (k, v) :: rest else p :: setKey rest k v

/-- Python `d.pop(k)`'s removal of the key. -/
def eraseKey {α : Type} : List (String × α) → String → List (String × α)
  | [], _ => []
  | p :: rest, k => if p.1 == k then eraseKey rest k else p :: eraseKey rest k

/-- `d.get k` : the value stored at `k`, if any. -/
def Doc.get (d : Doc) (k : String) : Option Val := getKey? d k

/-- Python `k in d`. -/
def Doc.containsKey (d : Doc) (k : String) : Bool := (getKey? d k).isSome

/-- Python `d[k] = v`. -/
def Doc.set (d : Doc) (k : String) (v : Val) : Doc := setKey d k v

/-- Python `str.split('_')` on a character list: split at every underscore,
keeping empty groups, so the result is always non-empty. -/
def splitUnderscore : List Char → List (List Char)
  | [] => [[]]
  | c :: rest =>
    let r := splitUnderscore rest
    if c = '_' then [] :: r
    else
      match r with
      | [] => [[c]]
      | g :: gs => (c :: g) :: gs

/-- `split_id(full_id)` from financier.py: `full_id.split('_')[-1]`, the
bare suffix after the last underscore. -/
def split_id (full_id : String) : String :=
  ((splitUnderscore full_id.toList).getLastD []).asString

/-- Python exceptions raised by the embedded code. -/
inductive Err : Type where
  | valueError : String → Err
  | keyError : String → Err
  | typeError : Err
  | transport : Nat → Err
deriving Repr, DecidableEq

/-- One store interaction, as recorded in an operation's trace. -/
inductive Effect : Type where
  | query : Doc → Effect
  | getDoc : String → Effect
  | insert : Doc → Effect
  | save : Doc → Effect

/-- Is this effect a `PUT` of a document (EasyCouchdb.save)? -/
def Effect.isSave : Effect → Bool
  | .save _ => true
  | _ => false

/-- Is this effect a write to the persisted store (insert or save)? -/
def Effect.isStoreWrite : Effect → Bool
  | .save _ => true
  | .insert _ => true
  | _ => false

/-- Is this effect a selector query (`_find` POST)? -/
def Effect.isQuery : Effect → Bool
  | .query _ => true
  | _ => false

/-- The save (`PUT`) effects of a trace. -/
def savesOf (l : List Effect) : List Effect := l.filter Effect.isSave

/-- The persisted-store writes (insert or save) of a trace. -/
def storeWritesOf (l : List Effect) : List Effect := l.filter Effect.isStoreWrite

/-- The selector-query effects of a trace. -/
def queriesOf (l : List Effect) : List Effect := l.filter Effect.isQuery

/-- The remote store, as an oracle giving each call's response.
`queryResp` may fail with a transport error (a raised requests exception);
the other calls respond with a document. -/
structure Store : Type where
  getDoc : String → Doc
  queryResp : Doc → Except Err (List Doc)
  insertResp : Doc → Doc
  saveResp : Doc → Doc

/-- The mutable per-session state of a `Financier` instance: the three
name-to-document caches, the active budget selector, and the supply of
fresh uuid strings consumed by `uuid.uuid4()` draws in program order. -/
structure FinSt : Type where
  account_map : List (String × Doc)
  category_map : List (String × Doc)
  payee_map : List (String × Doc)
  budget_selector : String
  uuids : List String

/-- Outcome of one embedded operation: Python return value or raised
exception, the state after the call, and the trace of store calls. -/
structure Res (α : Type) : Type where
  val : Except Err α
  st : FinSt
  effs : List Effect

/-- The selector JSON body sent by `find_account`. -/
def account_sel (bsel name : String) : Doc :=
  [("selector", Val.obj
      [("_id", Val.obj [("$regex", Val.str ("^" ++ bsel ++ "_account_"))]),
       ("name", Val.str name)]),
   ("fields", Val.arr [Val.str "_id", Val.str "name"])]

/-- The selector JSON body sent by `find_category`. -/
def category_sel (bsel name : String) : Doc :=
  [("selector", Val.obj
      [("_id", Val.obj [("$regex", Val.str ("^" ++ bsel ++ "_category_"))]),
       ("name", Val.str name)]),
   ("fields", Val.arr [Val.str "_id", Val.str "name"])]

/-- The selector JSON body sent by `find_payee`. -/
def payee_sel (bsel name : String) : Doc :=
  [("selector", Val.obj
      [("_id", Val.obj [("$regex", Val.str ("^" ++ bsel ++ "_payee_"))]),
       ("name", Val.str name)]),
   ("fields", Val.arr [Val.str "_id", Val.str "name", Val.str "categorySuggest"])]

/-- `Financier.find_account`: cache lookup, else remote query; on the remote
path the first matching document has its `_id` stripped to the bare uuid and
is cached.  Any exception inside the try block (transport error, empty
result, missing or non-string `_id`) becomes `ValueError("Account not
found")`. -/
def find_account (o : Store) (name : String) (st : FinSt) : Res Doc :=
  match getKey? st.account_map name with
  | some res => ⟨.ok res, st, []⟩
  | none =>
    let sel := account_sel st.budget_selector name
    match o.queryResp sel with
    | .error _ => ⟨.error (.valueError "Account not found"), st, [.query sel]⟩
    | .ok [] => ⟨.error (.valueError "Account not found"), st, [.query sel]⟩
    | .ok (res :: _) =>
      match Doc.get res "_id" with
      | some (Val.str s) =>
        let res2 := Doc.set res "_id" (Val.str (split_id s))
        ⟨.ok res2,
         { st with account_map := setKey st.account_map name res2 },
         [.query sel]⟩
      | some _ => ⟨.error (.valueError "Account not found"), st, [.query sel]⟩
      | none => ⟨.error (.valueError "Account not found"), st, [.query sel]⟩

/-- `Financier.find_category`: the sentinel names `income` and
`incomeNextMonth` short-circuit to `{'_id': name, 'name': name}`; otherwise
cache lookup, else remote query with the same normalise-and-cache behaviour
as `find_account`, converting any exception to `ValueError("Category not
found")`. -/
def find_category (o : Store) (name : String) (st : FinSt) : Res Doc :=
  if name == "income" || name == "incomeNextMonth" then
    ⟨.ok [("_id", Val.str name), ("name", Val.str name)], st, []⟩
  else
    match getKey? st.category_map name with
    | some res => ⟨.ok res, st, []⟩
    | none =>
      let sel := category_sel st.budget_selector name
      match o.queryResp sel with
      | .error _ => ⟨.error (.valueError "Category not found"), st, [.query sel]⟩
      | .ok [] => ⟨.error (.valueError "Category not found"), st, [.query sel]⟩
      | .ok (res :: _) =>
        match Doc.get res "_id" with
        | some (Val.str s) =>
          let res2 := Doc.set res "_id" (Val.str (split_id s))
          ⟨.ok res2,
           { st with category_map := setKey st.category_map name res2 },
           [.query sel]⟩
        | some _ => ⟨.error (.valueError "Category not found"), st, [.query sel]⟩
        | none => ⟨.error (.valueError "Category not found"), st, [.query sel]⟩

/-- `Financier.find_payee`: a raw remote query with no try block, so a
transport error propagates unchanged. -/
def find_payee (o : Store) (name : String) (st : FinSt) : Res (List Doc) :=
  let sel := payee_sel st.budget_selector name
  match o.queryResp sel with
  | .error e => ⟨.error e, st, [.query sel]⟩
  | .ok docs => ⟨.ok docs, st, [.query sel]⟩

/-- The document POSTed by `insert_payee`. -/
def new_payee_doc (bsel u name : String) : Doc :=
  [("_id", Val.str (bsel ++ "_payee_" ++ u)),
   ("name", Val.str name), ("internal", Val.bool false),
   ("autosuggest", Val.bool true)]

/-- `Financier.insert_payee`: POSTs a new payee document built from a fresh
uuid, the given name, `internal=False` and `autosuggest=True`, and returns
the store's response JSON. -/
def insert_payee (o : Store) (name : String) (st : FinSt) : Res Doc :=
  let u := st.uuids.headD ""
  let st1 := { st with uuids := st.uuids.tail }
  let doc := new_payee_doc st.budget_selector u name
  ⟨.ok (o.insertResp doc), st1, [.insert doc]⟩

/-- `Financier.get_or_create_payee`: cache lookup; else `find_payee`; on a
hit the first document's `_id` is stripped to the bare uuid and cached; on a
miss a new payee is inserted, the response's `id` is stripped and stored as
`_id` on the response document, which is cached and returned. -/
def get_or_create_payee (o : Store) (name : String) (st : FinSt) : Res Doc :=
  match getKey? st.payee_map name with
  | some p => ⟨.ok p, st, []⟩
  | none =>
    let fp := find_payee o name st
    match fp.val with
    | .error e => ⟨.error e, fp.st, fp.effs⟩
    | .ok [] =>
      let ip := insert_payee o name fp.st
      match ip.val with
      | .error e => ⟨.error e, ip.st, fp.effs ++ ip.effs⟩
      | .ok resp =>
        match Doc.get resp "id" with
        | some (Val.str s) =>
          let p2 := Doc.set resp "_id" (Val.str (split_id s))
          ⟨.ok p2,
           { ip.st with payee_map := setKey ip.st.payee_map name p2 },
           fp.effs ++ ip.effs⟩
        | some _ => ⟨.error .typeError, ip.st, fp.effs ++ ip.effs⟩
        | none => ⟨.error (.keyError "id"), ip.st, fp.effs ++ ip.effs⟩
    | .ok (p :: _) =>
      match Doc.get p "_id" with
      | some (Val.str s) =>
        let p2 := Doc.set p "_id" (Val.str (split_id s))
        ⟨.ok p2,
         { fp.st with payee_map := setKey fp.st.payee_map name p2 },
         fp.effs⟩
      | some _ => ⟨.error .typeError, fp.st, fp.effs⟩
      | none => ⟨.error (.keyError "_id"), fp.st, fp.effs⟩

/-- `Financier.get_id_transaction`: `'{0}_transaction_{1}'`. -/
def get_id_transaction (bsel this_id : String) : String :=
  bsel ++ "_transaction_" ++ this_id

/-- The `if '_rev' in tr: doc['_rev'] = tr['_rev']` step shared by the
save operations: attach the probe result's revision token when present. -/
def attach_rev (doc tr : Doc) : Doc :=
  match Doc.get tr "_rev" with
  | some rv => Doc.set doc "_rev" rv
  | none => doc

/-- The transaction document built by `save_transaction` (before the
revision token is attached). -/
def transaction_doc (idt : String) (value : Int) (account_id payee_id : Val)
    (date : String) (category_id memo : Val) : Doc :=
  [("_id", Val.str idt), ("value", Val.num value),
   ("account", account_id), ("payee", payee_id),
   ("date", Val.str date), ("category", category_id), ("memo", memo)]

/-- The parent document built by `save_split` (before the revision token is
attached): the literal category `split` and the resolved lines. -/
def split_parent_doc (idt : String) (value : Int)
    (account_id payee_id : Val) (date : String) (memo : Val)
    (lines : List Doc) : Doc :=
  [("_id", Val.str idt), ("value", Val.num value),
   ("account", account_id), ("payee", payee_id),
   ("date", Val.str date), ("category", Val.str "split"),
   ("memo", memo), ("splits", Val.arr (lines.map Val.obj))]

/-- The from-leg document built by `save_transfer`: negated value, the
resolved (possibly null) category, and `transfer` holding the to leg's bare
uuid. -/
def transfer_from_doc (idt : String) (value : Int) (account_id : Val)
    (date : String) (memo category_id : Val) (other_id : String) : Doc :=
  [("_id", Val.str idt), ("value", Val.num (-1 * value)),
   ("account", account_id), ("date", Val.str date),
   ("memo", memo), ("category", category_id),
   ("transfer", Val.str other_id)]

/-- The to-leg document built by `save_transfer`: the value as given, no
category field, and `transfer` holding the from leg's bare uuid. -/
def transfer_to_doc (idt : String) (value : Int) (account_id : Val)
    (date : String) (memo : Val) (other_id : String) : Doc :=
  [("_id", Val.str idt), ("value", Val.num value),
   ("account", account_id), ("date", Val.str date),
   ("memo", memo), ("transfer", Val.str other_id)]

/-- `Financier.save_transaction`: draw a fresh uuid; resolve account, payee
and category; existence-probe the built transaction id; if the probe result
is empty or lacks `_id`, build the document (attaching the probe's `_rev`
when present) and PUT it; otherwise log "already been imported" and return
`None`. -/
def save_transaction (o : Store) (account_name category_name : String)
    (value : Int) (date : String) (payee_name : String) (memo : Val)
    (st : FinSt) : Res (Option Doc) :=
  let this_id := st.uuids.headD ""
  let st0 := { st with uuids := st.uuids.tail }
  let fa := find_account o account_name st0
  match fa.val with
  | .error e => ⟨.error e, fa.st, fa.effs⟩
  | .ok acc =>
    match Doc.get acc "_id" with
    | none => ⟨.error (.keyError "_id"), fa.st, fa.effs⟩
    | some account_id =>
      let gp := get_or_create_payee o payee_name fa.st
      match gp.val with
      | .error e => ⟨.error e, gp.st, fa.effs ++ gp.effs⟩
      | .ok pay =>
        match Doc.get pay "_id" with
        | none => ⟨.error (.keyError "_id"), gp.st, fa.effs ++ gp.effs⟩
        | some payee_id =>
          let fc := find_category o category_name gp.st
          match fc.val with
          | .error e => ⟨.error e, fc.st, fa.effs ++ gp.effs ++ fc.effs⟩
          | .ok cat =>
            match Doc.get cat "_id" with
            | none =>
              ⟨.error (.keyError "_id"), fc.st, fa.effs ++ gp.effs ++ fc.effs⟩
            | some category_id =>
              let idt := get_id_transaction fc.st.budget_selector this_id
              let tr := o.getDoc idt
              let effs := fa.effs ++ gp.effs ++ fc.effs ++ [Effect.getDoc idt]
              if tr.isEmpty || !(Doc.containsKey tr "_id") then
                let doc := transaction_doc idt value account_id payee_id
                  date category_id memo
                let doc2 := attach_rev doc tr
                ⟨.ok (some (o.saveResp doc2)), fc.st,
                 effs ++ [Effect.save doc2]⟩
              else
                ⟨.ok none, fc.st, effs⟩

/-- One iteration of `save_split`'s line loop:
`t['category'] = self.find_category(t.pop('category_name'))['_id']` then
`t['payee'] = self.get_or_create_payee(t.pop('payee_name'))['_id']`.
A missing key raises a `KeyError`; a non-string name value is rejected
(the Python code would pass it to the resolver unchanged, which no caller
does). -/
def resolve_line (o : Store) (t : Doc) (st : FinSt) : Res Doc :=
  match Doc.get t "category_name" with
  | none => ⟨.error (.keyError "category_name"), st, []⟩
  | some (Val.str cname) =>
    let t1 := eraseKey t "category_name"
    let fc := find_category o cname st
    match fc.val with
    | .error e => ⟨.error e, fc.st, fc.effs⟩
    | .ok cat =>
      match Doc.get cat "_id" with
      | none => ⟨.error (.keyError "_id"), fc.st, fc.effs⟩
      | some cid =>
        let t2 := Doc.set t1 "category" cid
        match Doc.get t2 "payee_name" with
        | none => ⟨.error (.keyError "payee_name"), fc.st, fc.effs⟩
        | some (Val.str pname) =>
          let t3 := eraseKey t2 "payee_name"
          let gp := get_or_create_payee o pname fc.st
          match gp.val with
          | .error e => ⟨.error e, gp.st, fc.effs ++ gp.effs⟩
          | .ok pay =>
            match Doc.get pay "_id" with
            | none => ⟨.error (.keyError "_id"), gp.st, fc.effs ++ gp.effs⟩
            | some pid =>
              ⟨.ok (Doc.set t3 "payee" pid), gp.st, fc.effs ++ gp.effs⟩
        | some _ => ⟨.error .typeError, fc.st, fc.effs⟩
  | some _ => ⟨.error .typeError, st, []⟩

/-- `save_split`'s `for i, t in enumerate(transactions)` loop, resolving
each line in input order and threading cache state. -/
def resolve_lines (o : Store) (ts : List Doc) (st : FinSt) : Res (List Doc) :=
  match ts with
  | [] => ⟨.ok [], st, []⟩
  | t :: rest =>
    let rl := resolve_line o t st
    match rl.val with
    | .error e => ⟨.error e, rl.st, rl.effs⟩
    | .ok t2 =>
      let rs := resolve_lines o rest rl.st
      match rs.val with
      | .error e => ⟨.error e, rs.st, rl.effs ++ rs.effs⟩
      | .ok ts2 => ⟨.ok (t2 :: ts2), rs.st, rl.effs ++ rs.effs⟩

/-- `Financier.save_split`: draw a fresh uuid; resolve parent account and
payee; existence-probe the built transaction id; resolve every line of the
split (this loop runs before the probe result is consulted); if the probe
result is empty or lacks `_id`, PUT a parent document with the literal
category `split` and the resolved lines as `splits`; otherwise log and
return `None`. -/
def save_split (o : Store) (account_name : String) (value : Int)
    (date : String) (payee_name : String) (memo : Val)
    (transactions : List Doc) (st : FinSt) : Res (Option Doc) :=
  let this_id := st.uuids.headD ""
  let st0 := { st with uuids := st.uuids.tail }
  let fa := find_account o account_name st0
  match fa.val with
  | .error e => ⟨.error e, fa.st, fa.effs⟩
  | .ok acc =>
    match Doc.get acc "_id" with
    | none => ⟨.error (.keyError "_id"), fa.st, fa.effs⟩
    | some account_id =>
      let gp := get_or_create_payee o payee_name fa.st
      match gp.val with
      | .error e => ⟨.error e, gp.st, fa.effs ++ gp.effs⟩
      | .ok pay =>
        match Doc.get pay "_id" with
        | none => ⟨.error (.keyError "_id"), gp.st, fa.effs ++ gp.effs⟩
        | some payee_id =>
          let idt := get_id_transaction gp.st.budget_selector this_id
          let tr := o.getDoc idt
          let probeEffs := fa.effs ++ gp.effs ++ [Effect.getDoc idt]
          let rs := resolve_lines o transactions gp.st
          match rs.val with
          | .error e => ⟨.error e, rs.st, probeEffs ++ rs.effs⟩
          | .ok ts2 =>
            let effs := probeEffs ++ rs.effs
            if tr.isEmpty || !(Doc.containsKey tr "_id") then
              let doc := split_parent_doc idt value account_id payee_id
                date memo ts2
              let doc2 := attach_rev doc tr
              ⟨.ok (some (o.saveResp doc2)), rs.st,
               effs ++ [Effect.save doc2]⟩
            else
              ⟨.ok none, rs.st, effs⟩

/-- The `if from_category_name:` step of `save_transfer`: a falsy value
(absent or empty name) leaves the from-leg category `None`; otherwise the
category is resolved and its `_id` extracted. -/
def transfer_category (o : Store) (from_category_name : Option String)
    (st : FinSt) : Res (Option Val) :=
  let truthy : Option String :=
    match from_category_name with
    | none => none
    | some c => if c == "" then none else some c
  match truthy with
  | none => ⟨.ok none, st, []⟩
  | some cname =>
    let fc := find_category o cname st
    match fc.val with
    | .error e => ⟨.error e, fc.st, fc.effs⟩
    | .ok cat =>
      match Doc.get cat "_id" with
      | none => ⟨.error (.keyError "_id"), fc.st, fc.effs⟩
      | some cid => ⟨.ok (some cid), fc.st, fc.effs⟩

/-- `Financier.save_transfer`: draw two fresh uuids (from leg first);
resolve both accounts and, when a truthy category name is supplied, the
from-leg category; probe both transaction ids; for each leg independently,
build and PUT its document when absent (value negated on the from leg,
`transfer` holding the *other* leg's bare uuid, category only on the from
leg) or skip with `None` when present; return both outcomes. -/
def save_transfer (o : Store) (from_account_name to_account_name : String)
    (value : Int) (date : String) (memo : Val)
    (from_category_name : Option String) (st : FinSt) :
    Res (Option Doc × Option Doc) :=
  let from_id := st.uuids.headD ""
  let stA := { st with uuids := st.uuids.tail }
  let to_id := stA.uuids.headD ""
  let st0 := { stA with uuids := stA.uuids.tail }
  let fa := find_account o from_account_name st0
  match fa.val with
  | .error e => ⟨.error e, fa.st, fa.effs⟩
  | .ok fromAcc =>
    match Doc.get fromAcc "_id" with
    | none => ⟨.error (.keyError "_id"), fa.st, fa.effs⟩
    | some from_account_id =>
      let ta := find_account o to_account_name fa.st
      match ta.val with
      | .error e => ⟨.error e, ta.st, fa.effs ++ ta.effs⟩
      | .ok toAcc =>
        match Doc.get toAcc "_id" with
        | none => ⟨.error (.keyError "_id"), ta.st, fa.effs ++ ta.effs⟩
        | some to_account_id =>
          let fcRes := transfer_category o from_category_name ta.st
          match fcRes.val with
          | .error e => ⟨.error e, fcRes.st, fa.effs ++ ta.effs ++ fcRes.effs⟩
          | .ok catId =>
            let from_category_id :=
              match catId with
              | some cid => cid
              | none => Val.null
            let fidt := get_id_transaction fcRes.st.budget_selector from_id
            let tidt := get_id_transaction fcRes.st.budget_selector to_id
            let from_tr := o.getDoc fidt
            let to_tr := o.getDoc tidt
            let effs0 := fa.effs ++ ta.effs ++ fcRes.effs ++
              [Effect.getDoc fidt, Effect.getDoc tidt]
            let fromStep : Option Doc × List Effect :=
              if from_tr.isEmpty || !(Doc.containsKey from_tr "_id") then
                let from_doc2 := attach_rev
                  (transfer_from_doc fidt value from_account_id date memo
                    from_category_id to_id) from_tr
                (some (o.saveResp from_doc2), [Effect.save from_doc2])
              else
                (none, [])
            let toStep : Option Doc × List Effect :=
              if to_tr.isEmpty || !(Doc.containsKey to_tr "_id") then
                let to_doc2 := attach_rev
                  (transfer_to_doc tidt value to_account_id date memo
                    from_id) to_tr
                (some (o.saveResp to_doc2), [Effect.save to_doc2])
              else
                (none, [])
            ⟨.ok (fromStep.1, toStep.1), fcRes.st,
             effs0 ++ fromStep.2 ++ toStep.2⟩

/-! ## Basic lemmas about the dictionary model -/

theorem getKey_setKey {α : Type} (m : List (String × α)) (k : String)
    (v : α) : getKey? (setKey m k v) k = some v := by
  induction m with
  | nil => simp [setKey, getKey?]
  | cons p rest ih =>
    by_cases h : (p.1 == k) = true
    · simp [setKey, getKey?, h]
    · simp only [setKey, h, if_false, Bool.false_eq_true, ite_false]
      simp [getKey?, h, ih]

/-! ## Claim theorems -/

/-- Claim C3: `find_category` short-circuits on the sentinel names
`income` and `incomeNextMonth`: for every store and every session state it
returns the name itself as the resolved `_id` (and `name`), issues no store
call at all, and leaves the state (in particular the category cache)
untouched. -/
theorem find_category_sentinel_short_circuit :
    ∀ (o : Store) (st : FinSt),
      find_category o "income" st =
        ⟨.ok [("_id", Val.str "income"), ("name", Val.str "income")],
         st, []⟩ ∧
      find_category o "incomeNextMonth" st =
        ⟨.ok [("_id", Val.str "incomeNextMonth"),
              ("name", Val.str "incomeNextMonth")], st, []⟩ := by
  intro o st
  exact ⟨rfl, rfl⟩

/-- Claim C5: when an account name is not cached and the remote query
returns no matching document, `find_account` raises the not-found
`ValueError`, performs no write, and returns with the session state exactly
as it was (no placeholder cache entry). -/
theorem find_account_miss_not_found :
    ∀ (o : Store) (name : String) (st : FinSt),
      getKey? st.account_map name = none →
      o.queryResp (account_sel st.budget_selector name) = .ok [] →
      find_account o name st =
        ⟨.error (.valueError "Account not found"), st,
         [.query (account_sel st.budget_selector name)]⟩ := by
  intro o name st h1 h2
  simp only [find_account, h1, h2]

/-- Witness for `find_account_miss_not_found` at a concrete store/state. -/
def emptySt : FinSt :=
  { account_map := [], category_map := [], payee_map := [],
    budget_selector := "b1", uuids := ["u1", "u2", "u3"] }

/-- A store whose queries all report no matching documents. -/
def noMatchStore : Store :=
  { getDoc := fun _ => [],
    queryResp := fun _ => .ok [],
    insertResp := fun d => d,
    saveResp := fun d => d }

theorem find_account_miss_not_found_witness :
    find_account noMatchStore "Nonexistent" emptySt =
      ⟨.error (.valueError "Account not found"), emptySt,
       [.query (account_sel "b1" "Nonexistent")]⟩ :=
  find_account_miss_not_found noMatchStore "Nonexistent" emptySt rfl rfl

/-- A store whose queries all fail with a transport error. -/
def transportFailStore : Store :=
  { getDoc := fun _ => [],
    queryResp := fun _ => .error (.transport 7),
    insertResp := fun d => d,
    saveResp := fun d => d }

/-- Counterexample to claim C6 as stated: with an uncached account name and
a store whose query raises a transport error, `find_account` does not let
the transport error propagate unchanged — the blanket exception handler
converts it into the not-found `ValueError`. -/
theorem find_account_transport_error_converted :
    transportFailStore.queryResp (account_sel "b1" "X") =
      Except.error (Err.transport 7) ∧
    (find_account transportFailStore "X" emptySt).val =
      Except.error (Err.valueError "Account not found") ∧
    (find_account transportFailStore "X" emptySt).val ≠
      Except.error (Err.transport 7) := by
  refine ⟨rfl, rfl, ?_⟩
  intro h
  rw [show (find_account transportFailStore "X" emptySt).val =
        Except.error (Err.valueError "Account not found") from rfl] at h
  injection h with h2
  exact absurd h2 (by decide)

/-- Claim C6 (amended): a transport or store error raised by the remote
query during account or category resolution is caught by the blanket
handler and converted into the corresponding not-found `ValueError`, with
exactly one query issued (no retry) and the state unchanged; during payee
resolution there is no handler and the error propagates unchanged, again
with exactly one query and no state change. -/
theorem resolution_transport_error_behaviour :
    ∀ (o : Store) (name : String) (st : FinSt) (e : Err),
      (getKey? st.account_map name = none →
       o.queryResp (account_sel st.budget_selector name) = .error e →
       find_account o name st =
         ⟨.error (.valueError "Account not found"), st,
          [.query (account_sel st.budget_selector name)]⟩) ∧
      ((name == "income" || name == "incomeNextMonth") = false →
       getKey? st.category_map name = none →
       o.queryResp (category_sel st.budget_selector name) = .error e →
       find_category o name st =
         ⟨.error (.valueError "Category not found"), st,
          [.query (category_sel st.budget_selector name)]⟩) ∧
      (getKey? st.payee_map name = none →
       o.queryResp (payee_sel st.budget_selector name) = .error e →
       get_or_create_payee o name st =
         ⟨.error e, st, [.query (payee_sel st.budget_selector name)]⟩) := by
  intro o name st e
  refine ⟨?_, ?_, ?_⟩
  · intro h1 h2
    simp only [find_account, h1, h2]
  · intro h0 h1 h2
    simp only [find_category, h0, Bool.false_eq_true, if_false, h1, h2]
  · intro h1 h2
    simp only [get_or_create_payee, h1, find_payee, h2]

theorem resolution_transport_error_behaviour_witness :
    find_account transportFailStore "X" emptySt =
      ⟨.error (.valueError "Account not found"), emptySt,
       [.query (account_sel "b1" "X")]⟩ ∧
    find_category transportFailStore "X" emptySt =
      ⟨.error (.valueError "Category not found"), emptySt,
       [.query (category_sel "b1" "X")]⟩ ∧
    get_or_create_payee transportFailStore "X" emptySt =
      ⟨.error (.transport 7), emptySt,
       [.query (payee_sel "b1" "X")]⟩ := by
  obtain ⟨ha, hc, hp⟩ :=
    resolution_transport_error_behaviour transportFailStore "X" emptySt
      (.transport 7)
  exact ⟨ha rfl rfl, hc rfl rfl rfl, hp rfl rfl⟩

/-! ## Memoization lemmas -/

theorem find_account_caches (o : Store) (name : String) (st : FinSt)
    (d : Doc) (h : (find_account o name st).val = .ok d) :
    getKey? (find_account o name st).st.account_map name = some d := by
  rcases hm : getKey? st.account_map name with _ | res
  · rcases hq : o.queryResp (account_sel st.budget_selector name)
      with e | docs
    · simp only [find_account, hm, hq] at h
      exact Except.noConfusion h
    · cases docs with
      | nil =>
        simp only [find_account, hm, hq] at h
        exact Except.noConfusion h
      | cons res rest =>
        rcases hid : Doc.get res "_id" with _ | v
        · simp only [find_account, hm, hq, hid] at h
          exact Except.noConfusion h
        · cases v with
          | str s =>
            simp only [find_account, hm, hq, hid, Except.ok.injEq] at h ⊢
            rw [getKey_setKey]
            rw [h]
          | num n =>
            simp only [find_account, hm, hq, hid] at h
            exact Except.noConfusion h
          | bool b =>
            simp only [find_account, hm, hq, hid] at h
            exact Except.noConfusion h
          | null =>
            simp only [find_account, hm, hq, hid] at h
            exact Except.noConfusion h
          | obj l =>
            simp only [find_account, hm, hq, hid] at h
            exact Except.noConfusion h
          | arr l =>
            simp only [find_account, hm, hq, hid] at h
            exact Except.noConfusion h
  · simp only [find_account, hm, Except.ok.injEq] at h ⊢
    rw [h]

theorem find_category_caches (o : Store) (name : String) (st : FinSt)
    (d : Doc) (hs : (name == "income" || name == "incomeNextMonth") = false)
    (h : (find_category o name st).val = .ok d) :
    getKey? (find_category o name st).st.category_map name = some d := by
  rcases hm : getKey? st.category_map name with _ | res
  · rcases hq : o.queryResp (category_sel st.budget_selector name)
      with e | docs
    · simp only [find_category, hs, hm, hq, Bool.false_eq_true,
        if_false] at h
      exact Except.noConfusion h
    · cases docs with
      | nil =>
        simp only [find_category, hs, hm, hq, Bool.false_eq_true,
          if_false] at h
        exact Except.noConfusion h
      | cons res rest =>
        rcases hid : Doc.get res "_id" with _ | v
        · simp only [find_category, hs, hm, hq, hid, Bool.false_eq_true,
            if_false] at h
          exact Except.noConfusion h
        · cases v with
          | str s =>
            simp only [find_category, hs, hm, hq, hid, Bool.false_eq_true,
              if_false, Except.ok.injEq] at h ⊢
            rw [getKey_setKey]
            rw [h]
          | num n =>
            simp only [find_category, hs, hm, hq, hid, Bool.false_eq_true,
              if_false] at h
            exact Except.noConfusion h
          | bool b =>
            simp only [find_category, hs, hm, hq, hid, Bool.false_eq_true,
              if_false] at h
            exact Except.noConfusion h
          | null =>
            simp only [find_category, hs, hm, hq, hid, Bool.false_eq_true,
              if_false] at h
            exact Except.noConfusion h
          | obj l =>
            simp only [find_category, hs, hm, hq, hid, Bool.false_eq_true,
              if_false] at h
            exact Except.noConfusion h
          | arr l =>
            simp only [find_category, hs, hm, hq, hid, Bool.false_eq_true,
              if_false] at h
            exact Except.noConfusion h
  · simp only [find_category, hs, hm, Bool.false_eq_true, if_false,
      Except.ok.injEq] at h ⊢
    rw [h]

theorem get_or_create_payee_caches (o : Store) (name : String) (st : FinSt)
    (d : Doc) (h : (get_or_create_payee o name st).val = .ok d) :
    getKey? (get_or_create_payee o name st).st.payee_map name = some d := by
  rcases hm : getKey? st.payee_map name with _ | p
  · rcases hq : o.queryResp (payee_sel st.budget_selector name)
      with e | docs
    · simp only [get_or_create_payee, hm, find_payee, hq] at h
      exact Except.noConfusion h
    · cases docs with
      | nil =>
        rcases hid : Doc.get (o.insertResp (new_payee_doc
            st.budget_selector (st.uuids.headD "") name)) "id" with _ | v
        · simp only [get_or_create_payee, hm, find_payee, hq, insert_payee,
            hid] at h
          exact Except.noConfusion h
        · cases v with
          | str s =>
            simp only [get_or_create_payee, hm, find_payee, hq,
              insert_payee, hid, Except.ok.injEq] at h ⊢
            rw [getKey_setKey]
            rw [h]
          | num n =>
            simp only [get_or_create_payee, hm, find_payee, hq,
              insert_payee, hid] at h
            exact Except.noConfusion h
          | bool b =>
            simp only [get_or_create_payee, hm, find_payee, hq,
              insert_payee, hid] at h
            exact Except.noConfusion h
          | null =>
            simp only [get_or_create_payee, hm, find_payee, hq,
              insert_payee, hid] at h
            exact Except.noConfusion h
          | obj l =>
            simp only [get_or_create_payee, hm, find_payee, hq,
              insert_payee, hid] at h
            exact Except.noConfusion h
          | arr l =>
            simp only [get_or_create_payee, hm, find_payee, hq,
              insert_payee, hid] at h
            exact Except.noConfusion h
      | cons p rest =>
        rcases hid : Doc.get p "_id" with _ | v
        · simp only [get_or_create_payee, hm, find_payee, hq, hid] at h
          exact Except.noConfusion h
        · cases v with
          | str s =>
            simp only [get_or_create_payee, hm, find_payee, hq, hid,
              Except.ok.injEq] at h ⊢
            rw [getKey_setKey]
            rw [h]
          | num n =>
            simp only [get_or_create_payee, hm, find_payee, hq, hid] at h
            exact Except.noConfusion h
          | bool b =>
            simp only [get_or_create_payee, hm, find_payee, hq, hid] at h
            exact Except.noConfusion h
          | null =>
            simp only [get_or_create_payee, hm, find_payee, hq, hid] at h
            exact Except.noConfusion h
          | obj l =>
            simp only [get_or_create_payee, hm, find_payee, hq, hid] at h
            exact Except.noConfusion h
          | arr l =>
            simp only [get_or_create_payee, hm, find_payee, hq, hid] at h
            exact Except.noConfusion h
  · simp only [get_or_create_payee, hm, Except.ok.injEq] at h ⊢
    rw [h]

/-- Claim C4: once a resolution of a name has succeeded (for accounts,
categories or payees), resolving the same name again from the resulting
session state issues no store call at all, returns exactly the document the
first resolution returned, and leaves the state unchanged. -/
theorem resolution_memoized :
    ∀ (o : Store) (name : String) (st : FinSt) (d : Doc),
      ((find_account o name st).val = .ok d →
        find_account o name (find_account o name st).st =
          ⟨.ok d, (find_account o name st).st, []⟩) ∧
      ((find_category o name st).val = .ok d →
        find_category o name (find_category o name st).st =
          ⟨.ok d, (find_category o name st).st, []⟩) ∧
      ((get_or_create_payee o name st).val = .ok d →
        get_or_create_payee o name (get_or_create_payee o name st).st =
          ⟨.ok d, (get_or_create_payee o name st).st, []⟩) := by
  intro o name st d
  refine ⟨?_, ?_, ?_⟩
  · intro h
    have hc := find_account_caches o name st d h
    generalize (find_account o name st).st = st2 at hc ⊢
    simp only [find_account, hc]
  · intro h
    by_cases hs : (name == "income" || name == "incomeNextMonth") = true
    · have hd : d = [("_id", Val.str name), ("name", Val.str name)] := by
        simp only [find_category, hs, if_true, Except.ok.injEq] at h
        exact h.symm
      simp only [find_category, hs, if_true, hd]
    · have hs2 : (name == "income" || name == "incomeNextMonth") = false :=
        Bool.not_eq_true _ ▸ eq_false_of_ne_true hs
      have hc := find_category_caches o name st d hs2 h
      generalize (find_category o name st).st = st2 at hc ⊢
      simp only [find_category, hs2, Bool.false_eq_true, if_false, hc]
  · intro h
    have hc := get_or_create_payee_caches o name st d h
    generalize (get_or_create_payee o name st).st = st2 at hc ⊢
    simp only [get_or_create_payee, hc]

/-- The exact-match `name` constraint of a selector query body. -/
def sel_name (sel : Doc) : Option String :=
  match getKey? sel "selector" with
  | some (Val.obj s) =>
    match getKey? s "name" with
    | some (Val.str n) => some n
    | _ => none
  | _ => none

/-- The id-prefix regex of a selector query body. -/
def sel_regex (sel : Doc) : Option String :=
  match getKey? sel "selector" with
  | some (Val.obj s) =>
    match getKey? s "_id" with
    | some (Val.obj r) =>
      match getKey? r "$regex" with
      | some (Val.str x) => some x
      | _ => none
    | _ => none
  | _ => none

/-- A store holding one account, one category and one payee matching the
selector queries, for concrete runs. -/
def oneOfEachStore : Store :=
  { getDoc := fun _ => [],
    queryResp := fun sel =>
      if sel_regex sel = some "^b1_account_" ∧ sel_name sel = some "Checking"
      then
        .ok [[("_id", Val.str "b1_account_a77"),
              ("name", Val.str "Checking")]]
      else if sel_regex sel = some "^b1_category_" ∧
          sel_name sel = some "Groceries" then
        .ok [[("_id", Val.str "b1_category_c55"),
              ("name", Val.str "Groceries")]]
      else if sel_regex sel = some "^b1_payee_" ∧
          sel_name sel = some "Store" then
        .ok [[("_id", Val.str "b1_payee_p33"),
              ("name", Val.str "Store")]]
      else .ok [],
    insertResp := fun d =>
      [("ok", Val.bool true),
       ("id", match Doc.get d "_id" with
              | some v => v
              | none => Val.null),
       ("rev", Val.str "1-abc")],
    saveResp := fun d => d }

theorem resolution_memoized_witness :
    ((find_account oneOfEachStore "Checking" emptySt).val =
       Except.ok [("_id", Val.str "a77"), ("name", Val.str "Checking")]) ∧
    find_account oneOfEachStore "Checking"
        (find_account oneOfEachStore "Checking" emptySt).st =
      ⟨.ok [("_id", Val.str "a77"), ("name", Val.str "Checking")],
       (find_account oneOfEachStore "Checking" emptySt).st, []⟩ ∧
    find_category oneOfEachStore "Groceries"
        (find_category oneOfEachStore "Groceries" emptySt).st =
      ⟨.ok [("_id", Val.str "c55"), ("name", Val.str "Groceries")],
       (find_category oneOfEachStore "Groceries" emptySt).st, []⟩ ∧
    get_or_create_payee oneOfEachStore "Store"
        (get_or_create_payee oneOfEachStore "Store" emptySt).st =
      ⟨.ok [("_id", Val.str "p33"), ("name", Val.str "Store")],
       (get_or_create_payee oneOfEachStore "Store" emptySt).st, []⟩ := by
  refine ⟨rfl, ?_, ?_, ?_⟩
  · exact (resolution_memoized oneOfEachStore "Checking" emptySt
      [("_id", Val.str "a77"), ("name", Val.str "Checking")]).1 rfl
  · exact (resolution_memoized oneOfEachStore "Groceries" emptySt
      [("_id", Val.str "c55"), ("name", Val.str "Groceries")]).2.1 rfl
  · exact (resolution_memoized oneOfEachStore "Store" emptySt
      [("_id", Val.str "p33"), ("name", Val.str "Store")]).2.2 rfl

/-- Claim C7: on a full miss (name neither cached nor matched remotely),
`get_or_create_payee` issues exactly one query and one insert; the inserted
document is the namespaced payee stub with the given name, `internal=false`
and `autosuggest=true`; the store's response gains a `_id` field holding the
bare suffix of the store-assigned `id` and is cached under the name and
returned; a second resolution from the resulting state hits the cache and
issues no store call. -/
theorem payee_full_miss_creates_and_caches :
    ∀ (o : Store) (name : String) (st : FinSt) (s : String),
      getKey? st.payee_map name = none →
      o.queryResp (payee_sel st.budget_selector name) = .ok [] →
      Doc.get (o.insertResp
          (new_payee_doc st.budget_selector (st.uuids.headD "") name))
          "id" = some (Val.str s) →
      get_or_create_payee o name st =
        ⟨.ok (Doc.set (o.insertResp
            (new_payee_doc st.budget_selector (st.uuids.headD "") name))
            "_id" (Val.str (split_id s))),
         { st with
             payee_map := setKey st.payee_map name
               (Doc.set (o.insertResp
                 (new_payee_doc st.budget_selector (st.uuids.headD "") name))
                 "_id" (Val.str (split_id s))),
             uuids := st.uuids.tail },
         [.query (payee_sel st.budget_selector name),
          .insert (new_payee_doc st.budget_selector (st.uuids.headD "")
            name)]⟩ ∧
      get_or_create_payee o name (get_or_create_payee o name st).st =
        ⟨.ok (Doc.set (o.insertResp
            (new_payee_doc st.budget_selector (st.uuids.headD "") name))
            "_id" (Val.str (split_id s))),
         (get_or_create_payee o name st).st, []⟩ := by
  intro o name st s h1 h2 h3
  have hfirst : get_or_create_payee o name st =
      ⟨.ok (Doc.set (o.insertResp
          (new_payee_doc st.budget_selector (st.uuids.headD "") name))
          "_id" (Val.str (split_id s))),
       { st with
           payee_map := setKey st.payee_map name
             (Doc.set (o.insertResp
               (new_payee_doc st.budget_selector (st.uuids.headD "") name))
               "_id" (Val.str (split_id s))),
           uuids := st.uuids.tail },
       [.query (payee_sel st.budget_selector name),
        .insert (new_payee_doc st.budget_selector (st.uuids.headD "")
          name)]⟩ := by
    simp only [get_or_create_payee, h1, find_payee, h2, insert_payee, h3]
    rfl
  refine ⟨hfirst, ?_⟩
  rw [hfirst]
  simp only [get_or_create_payee, getKey_setKey]

theorem payee_full_miss_creates_and_caches_witness :
    get_or_create_payee oneOfEachStore "NewGuy" emptySt =
      ⟨.ok [("ok", Val.bool true), ("id", Val.str "b1_payee_u1"),
            ("rev", Val.str "1-abc"), ("_id", Val.str "u1")],
       { emptySt with
           payee_map := [("NewGuy",
             [("ok", Val.bool true), ("id", Val.str "b1_payee_u1"),
              ("rev", Val.str "1-abc"), ("_id", Val.str "u1")])],
           uuids := ["u2", "u3"] },
       [.query (payee_sel "b1" "NewGuy"),
        .insert (new_payee_doc "b1" "u1" "NewGuy")]⟩ ∧
    get_or_create_payee oneOfEachStore "NewGuy"
        (get_or_create_payee oneOfEachStore "NewGuy" emptySt).st =
      ⟨.ok [("ok", Val.bool true), ("id", Val.str "b1_payee_u1"),
            ("rev", Val.str "1-abc"), ("_id", Val.str "u1")],
       (get_or_create_payee oneOfEachStore "NewGuy" emptySt).st, []⟩ := by
  have h := payee_full_miss_creates_and_caches oneOfEachStore "NewGuy"
    emptySt "b1_payee_u1" rfl rfl rfl
  exact ⟨h.1, h.2⟩

/-! ## Effect and state-preservation lemmas for the save operations -/

theorem find_account_bsel (o : Store) (name : String) (st : FinSt) :
    (find_account o name st).st.budget_selector = st.budget_selector := by
  simp only [find_account]
  repeat' split
  all_goals rfl

theorem find_category_bsel (o : Store) (name : String) (st : FinSt) :
    (find_category o name st).st.budget_selector = st.budget_selector := by
  simp only [find_category]
  repeat' split
  all_goals rfl

theorem get_or_create_payee_bsel (o : Store) (name : String) (st : FinSt) :
    (get_or_create_payee o name st).st.budget_selector =
      st.budget_selector := by
  simp only [get_or_create_payee, find_payee, insert_payee]
  repeat' split
  all_goals rfl

theorem find_account_no_store_write (o : Store) (name : String)
    (st : FinSt) : storeWritesOf (find_account o name st).effs = [] := by
  simp only [find_account]
  repeat' split
  all_goals rfl

theorem find_category_no_store_write (o : Store) (name : String)
    (st : FinSt) : storeWritesOf (find_category o name st).effs = [] := by
  simp only [find_category]
  repeat' split
  all_goals rfl

theorem get_or_create_payee_no_save (o : Store) (name : String)
    (st : FinSt) : savesOf (get_or_create_payee o name st).effs = [] := by
  simp only [get_or_create_payee, find_payee, insert_payee]
  repeat' split
  all_goals rfl

theorem find_account_no_save (o : Store) (name : String) (st : FinSt) :
    savesOf (find_account o name st).effs = [] := by
  simp only [find_account]
  repeat' split
  all_goals rfl

theorem find_category_no_save (o : Store) (name : String) (st : FinSt) :
    savesOf (find_category o name st).effs = [] := by
  simp only [find_category]
  repeat' split
  all_goals rfl

theorem containsKey_not_isEmpty (d : Doc) (k : String)
    (h : Doc.containsKey d k = true) : d.isEmpty = false := by
  cases d with
  | nil => simp [Doc.containsKey, getKey?] at h
  | cons p rest => rfl

theorem savesOf_append (a b : List Effect) :
    savesOf (a ++ b) = savesOf a ++ savesOf b := by
  simp [savesOf, List.filter_append]

theorem storeWritesOf_append (a b : List Effect) :
    storeWritesOf (a ++ b) = storeWritesOf a ++ storeWritesOf b := by
  simp [storeWritesOf, List.filter_append]

/-- Like `oneOfEachStore`, but every point lookup finds an existing
document carrying `_id`, so every existence probe reports presence. -/
def skipPathStore : Store :=
  { oneOfEachStore with getDoc := fun i => [("_id", Val.str i)] }

/-- Counterexample to claim C1 as stated: a `save_transaction` call whose
existence probe finds a document with `_id` (so the transaction write is
skipped and `None` is returned) can still change the persisted store — the
payee-resolution phase, which runs before the probe, inserts a new payee
document.  So "the persisted store state is unchanged" fails. -/
theorem save_transaction_skip_path_still_writes :
    Doc.containsKey (skipPathStore.getDoc
      (get_id_transaction "b1" "u1")) "_id" = true ∧
    (save_transaction skipPathStore "Checking" "Groceries" 400 "2020-01-01"
      "NewGuy" (Val.str "memo") emptySt).val = .ok none ∧
    storeWritesOf (save_transaction skipPathStore "Checking" "Groceries"
      400 "2020-01-01" "NewGuy" (Val.str "memo") emptySt).effs =
      [Effect.insert (new_payee_doc "b1" "u2" "NewGuy")] ∧
    storeWritesOf (save_transaction skipPathStore "Checking" "Groceries"
      400 "2020-01-01" "NewGuy" (Val.str "memo") emptySt).effs ≠ [] := by
  refine ⟨rfl, rfl, rfl, ?_⟩
  intro h
  rw [show storeWritesOf (save_transaction skipPathStore "Checking"
      "Groceries" 400 "2020-01-01" "NewGuy" (Val.str "memo") emptySt).effs =
      [Effect.insert (new_payee_doc "b1" "u2" "NewGuy")] from rfl] at h
  exact List.noConfusion h

/-- Claim C1 (amended): if the existence probe for the built transaction id
would report a document carrying `_id`, then `save_transaction` issues no
save call (no transaction document is persisted — though the earlier payee
resolution may have inserted a payee), and whenever the call completes
without an exception it returns `None` (the non-fatal "already imported"
report).  Hence a second invocation against a store in which the
transaction id already names a document adds no save to the one performed
by the first invocation. -/
theorem save_transaction_already_recorded :
    ∀ (o : Store) (an cn : String) (v : Int) (dt pn : String) (m : Val)
      (st : FinSt),
      Doc.containsKey (o.getDoc (get_id_transaction st.budget_selector
        (st.uuids.headD ""))) "_id" = true →
      savesOf (save_transaction o an cn v dt pn m st).effs = [] ∧
      (∀ r, (save_transaction o an cn v dt pn m st).val = .ok r →
        r = none) ∧
      (∀ (effs1 : List Effect) (d1 : Doc),
        savesOf effs1 = [Effect.save d1] →
        savesOf (effs1 ++ (save_transaction o an cn v dt pn m st).effs) =
          [Effect.save d1]) := by
  intro o an cn v dt pn m st hprobe
  have main : savesOf (save_transaction o an cn v dt pn m st).effs = [] ∧
      ∀ r, (save_transaction o an cn v dt pn m st).val = .ok r →
        r = none := by
    have hFAsave := find_account_no_save o an
      { st with uuids := st.uuids.tail }
    have hFAbsel := find_account_bsel o an
      { st with uuids := st.uuids.tail }
    simp only [save_transaction]
    generalize hFA : find_account o an { st with uuids := st.uuids.tail }
      = fa at *
    rcases hfa : fa.val with e | acc
    · simp only [hfa]
      exact ⟨hFAsave, fun r hr => Except.noConfusion hr⟩
    · simp only [hfa]
      rcases hid : Doc.get acc "_id" with _ | aid
      · simp only [hid]
        exact ⟨hFAsave, fun r hr => Except.noConfusion hr⟩
      · simp only [hid]
        have hGPsave := get_or_create_payee_no_save o pn fa.st
        have hGPbsel := get_or_create_payee_bsel o pn fa.st
        generalize hGP : get_or_create_payee o pn fa.st = gp at *
        rcases hgp : gp.val with e | pay
        · simp only [hgp, savesOf_append, hFAsave, hGPsave]
          exact ⟨rfl, fun r hr => Except.noConfusion hr⟩
        · simp only [hgp]
          rcases hpid : Doc.get pay "_id" with _ | pid
          · simp only [hpid, savesOf_append, hFAsave, hGPsave]
            exact ⟨rfl, fun r hr => Except.noConfusion hr⟩
          · simp only [hpid]
            have hFCsave := find_category_no_save o cn gp.st
            have hFCbsel := find_category_bsel o cn gp.st
            generalize hFC : find_category o cn gp.st = fc at *
            rcases hfc : fc.val with e | cat
            · simp only [hfc, savesOf_append, hFAsave, hGPsave, hFCsave]
              exact ⟨rfl, fun r hr => Except.noConfusion hr⟩
            · simp only [hfc]
              rcases hcid : Doc.get cat "_id" with _ | cid
              · simp only [hcid, savesOf_append, hFAsave, hGPsave, hFCsave]
                exact ⟨rfl, fun r hr => Except.noConfusion hr⟩
              · simp only [hcid]
                have hb : fc.st.budget_selector = st.budget_selector := by
                  rw [hFCbsel, hGPbsel, hFAbsel]
                have hprobe2 : Doc.containsKey (o.getDoc
                    (get_id_transaction fc.st.budget_selector
                      (st.uuids.headD ""))) "_id" = true := by
                  rw [hb]
                  exact hprobe
                have hcond : ((o.getDoc (get_id_transaction
                    fc.st.budget_selector (st.uuids.headD ""))).isEmpty ||
                    !(Doc.containsKey (o.getDoc (get_id_transaction
                      fc.st.budget_selector (st.uuids.headD ""))) "_id")) =
                    false := by
                  rw [hprobe2,
                    containsKey_not_isEmpty _ _ hprobe2]
                  rfl
                simp only [hcond, Bool.false_eq_true, if_false]
                constructor
                · simp only [savesOf_append, hFAsave, hGPsave, hFCsave]
                  rfl
                · intro r hr
                  injection hr with hr2
                  exact hr2.symm
  refine ⟨main.1, main.2, ?_⟩
  intro effs1 d1 h1
  rw [savesOf_append, main.1, h1]
  rfl

theorem getKey_setKey_ne {α : Type} (m : List (String × α))
    (k k2 : String) (v : α) (h : (k2 == k) = false) :
    getKey? (setKey m k2 v) k = getKey? m k := by
  induction m with
  | nil => simp [setKey, getKey?, h]
  | cons p rest ih =>
    by_cases hp : (p.1 == k2) = true
    · have hp2 : (p.1 == k) = false := by
        have he : p.1 = k2 := beq_iff_eq.mp hp
        rw [he]
        exact h
      simp [setKey, getKey?, hp, hp2, h]
    · have hp3 : (p.1 == k2) = false := by
        exact eq_false_of_ne_true hp
      simp only [setKey, hp3, Bool.false_eq_true, if_false]
      by_cases hq : (p.1 == k) = true
      · simp [getKey?, hq]
      · have hq2 : (p.1 == k) = false := eq_false_of_ne_true hq
        simp [getKey?, hq2, ih]

theorem attach_rev_get_rev (doc tr : Doc)
    (h : Doc.get doc "_rev" = none) :
    Doc.get (attach_rev doc tr) "_rev" = Doc.get tr "_rev" := by
  unfold attach_rev
  rcases ht : Doc.get tr "_rev" with _ | rv
  · exact h
  · simp only [ht]
    exact getKey_setKey doc "_rev" rv

theorem attach_rev_get_other (doc tr : Doc) (k : String)
    (h : ("_rev" == k) = false) :
    Doc.get (attach_rev doc tr) k = Doc.get doc k := by
  unfold attach_rev
  rcases ht : Doc.get tr "_rev" with _ | rv
  · rfl
  · simp only [ht]
    exact getKey_setKey_ne doc k "_rev" rv h

theorem transfer_category_bsel (o : Store) (fcn : Option String)
    (st : FinSt) :
    (transfer_category o fcn st).st.budget_selector =
      st.budget_selector := by
  simp only [transfer_category]
  repeat' split
  all_goals first
    | rfl
    | exact find_category_bsel o _ st

theorem transfer_category_no_save (o : Store) (fcn : Option String)
    (st : FinSt) :
    savesOf (transfer_category o fcn st).effs = [] := by
  simp only [transfer_category]
  repeat' split
  all_goals first
    | rfl
    | exact find_category_no_save o _ st

theorem save_transaction_already_recorded_witness :
    savesOf (save_transaction skipPathStore "Checking" "Groceries" 400
      "2020-01-01" "NewGuy" (Val.str "memo") emptySt).effs = [] ∧
    (∀ r, (save_transaction skipPathStore "Checking" "Groceries" 400
      "2020-01-01" "NewGuy" (Val.str "memo") emptySt).val = .ok r →
      r = none) ∧
    (∀ (effs1 : List Effect) (d1 : Doc),
      savesOf effs1 = [Effect.save d1] →
      savesOf (effs1 ++ (save_transaction skipPathStore "Checking"
        "Groceries" 400 "2020-01-01" "NewGuy" (Val.str "memo")
        emptySt).effs) = [Effect.save d1]) :=
  save_transaction_already_recorded skipPathStore "Checking" "Groceries"
    400 "2020-01-01" "NewGuy" (Val.str "memo") emptySt rfl

/-- Claim C9: when the existence probe result lacks `_id` and the call
completes without an exception, the write proceeds: exactly one save is
issued, of a document whose `_rev` field equals the probe result's `_rev`
field — the revision token is carried over when present, and no `_rev`
field is present otherwise. -/
theorem save_transaction_rev_attached :
    ∀ (o : Store) (an cn : String) (v : Int) (dt pn : String) (m : Val)
      (st : FinSt),
      Doc.containsKey (o.getDoc (get_id_transaction st.budget_selector
        (st.uuids.headD ""))) "_id" = false →
      (∃ r, (save_transaction o an cn v dt pn m st).val = .ok r) →
      ∃ d, (save_transaction o an cn v dt pn m st).val =
          .ok (some (o.saveResp d)) ∧
        savesOf (save_transaction o an cn v dt pn m st).effs =
          [Effect.save d] ∧
        Doc.get d "_rev" = Doc.get (o.getDoc (get_id_transaction
          st.budget_selector (st.uuids.headD ""))) "_rev" := by
  intro o an cn v dt pn m st hprobe hok
  have hFAsave := find_account_no_save o an
    { st with uuids := st.uuids.tail }
  have hFAbsel := find_account_bsel o an
    { st with uuids := st.uuids.tail }
  simp only [save_transaction] at hok ⊢
  generalize hFA : find_account o an { st with uuids := st.uuids.tail }
    = fa at *
  rcases hfa : fa.val with e | acc
  · simp only [hfa] at hok
    obtain ⟨r, hr⟩ := hok
    exact Except.noConfusion hr
  · simp only [hfa] at hok ⊢
    rcases hid : Doc.get acc "_id" with _ | aid
    · simp only [hid] at hok
      obtain ⟨r, hr⟩ := hok
      exact Except.noConfusion hr
    · simp only [hid] at hok ⊢
      have hGPsave := get_or_create_payee_no_save o pn fa.st
      have hGPbsel := get_or_create_payee_bsel o pn fa.st
      generalize hGP : get_or_create_payee o pn fa.st = gp at *
      rcases hgp : gp.val with e | pay
      · simp only [hgp] at hok
        obtain ⟨r, hr⟩ := hok
        exact Except.noConfusion hr
      · simp only [hgp] at hok ⊢
        rcases hpid : Doc.get pay "_id" with _ | pid
        · simp only [hpid] at hok
          obtain ⟨r, hr⟩ := hok
          exact Except.noConfusion hr
        · simp only [hpid] at hok ⊢
          have hFCsave := find_category_no_save o cn gp.st
          have hFCbsel := find_category_bsel o cn gp.st
          generalize hFC : find_category o cn gp.st = fc at *
          rcases hfc : fc.val with e | cat
          · simp only [hfc] at hok
            obtain ⟨r, hr⟩ := hok
            exact Except.noConfusion hr
          · simp only [hfc] at hok ⊢
            rcases hcid : Doc.get cat "_id" with _ | cid
            · simp only [hcid] at hok
              obtain ⟨r, hr⟩ := hok
              exact Except.noConfusion hr
            · simp only [hcid] at hok ⊢
              have hb : fc.st.budget_selector = st.budget_selector := by
                rw [hFCbsel, hGPbsel, hFAbsel]
              rw [hb]
              have hcond : ((o.getDoc (get_id_transaction
                  st.budget_selector (st.uuids.headD ""))).isEmpty ||
                  !(Doc.containsKey (o.getDoc (get_id_transaction
                    st.budget_selector (st.uuids.headD ""))) "_id")) =
                  true := by
                rw [hprobe]
                exact Bool.or_true _
              simp only [hcond, if_true]
              refine ⟨_, rfl, ?_, ?_⟩
              · simp only [savesOf_append, hFAsave, hGPsave, hFCsave]
                rfl
              · exact attach_rev_get_rev _ _ rfl

/-- A store like `oneOfEachStore` but whose point lookups find a partially
written prior document: a revision token and no `_id`. -/
def revStore : Store :=
  { oneOfEachStore with getDoc := fun _ => [("_rev", Val.str "3-z")] }

theorem save_transaction_rev_attached_witness :
    (∃ d, (save_transaction revStore "Checking" "Groceries" 400
        "2020-01-01" "NewGuy" (Val.str "memo") emptySt).val =
        .ok (some (revStore.saveResp d)) ∧
      savesOf (save_transaction revStore "Checking" "Groceries" 400
        "2020-01-01" "NewGuy" (Val.str "memo") emptySt).effs =
        [Effect.save d] ∧
      Doc.get d "_rev" = Doc.get (revStore.getDoc (get_id_transaction
        "b1" "u1")) "_rev") ∧
    Doc.get (revStore.getDoc (get_id_transaction "b1" "u1")) "_rev" =
      some (Val.str "3-z") ∧
    Doc.containsKey (revStore.getDoc (get_id_transaction "b1" "u1"))
      "_id" = false := by
  refine ⟨?_, rfl, rfl⟩
  exact save_transaction_rev_attached revStore "Checking" "Groceries" 400
    "2020-01-01" "NewGuy" (Val.str "memo") emptySt rfl ⟨_, rfl⟩

/-- Claim C2: when both legs' existence probes report absence and the call
completes without an exception, `save_transfer` saves exactly two
documents: the from leg with the arithmetic negation of the value and the
to leg with the value itself, each carrying in `transfer` the other leg's
bare generated identifier. -/
theorem save_transfer_symmetry :
    ∀ (o : Store) (fan tan : String) (v : Int) (dt : String) (m : Val)
      (fcn : Option String) (st : FinSt),
      Doc.containsKey (o.getDoc (get_id_transaction st.budget_selector
        (st.uuids.headD ""))) "_id" = false →
      Doc.containsKey (o.getDoc (get_id_transaction st.budget_selector
        (st.uuids.tail.headD ""))) "_id" = false →
      (∃ r, (save_transfer o fan tan v dt m fcn st).val = .ok r) →
      ∃ fd td,
        (save_transfer o fan tan v dt m fcn st).val =
          .ok (some (o.saveResp fd), some (o.saveResp td)) ∧
        savesOf (save_transfer o fan tan v dt m fcn st).effs =
          [Effect.save fd, Effect.save td] ∧
        Doc.get fd "value" = some (Val.num (-1 * v)) ∧
        Doc.get td "value" = some (Val.num v) ∧
        Doc.get fd "transfer" = some (Val.str (st.uuids.tail.headD "")) ∧
        Doc.get td "transfer" = some (Val.str (st.uuids.headD "")) := by
  intro o fan tan v dt m fcn st hfrom hto hok
  have hFAsave := find_account_no_save o fan
    { st with uuids := st.uuids.tail.tail }
  have hFAbsel := find_account_bsel o fan
    { st with uuids := st.uuids.tail.tail }
  simp only [save_transfer] at hok ⊢
  generalize hFA : find_account o fan
    { st with uuids := st.uuids.tail.tail } = fa at *
  rcases hfa : fa.val with e | fromAcc
  · simp only [hfa] at hok
    obtain ⟨r, hr⟩ := hok
    exact Except.noConfusion hr
  · simp only [hfa] at hok ⊢
    rcases hfid : Doc.get fromAcc "_id" with _ | faid
    · simp only [hfid] at hok
      obtain ⟨r, hr⟩ := hok
      exact Except.noConfusion hr
    · simp only [hfid] at hok ⊢
      have hTAsave := find_account_no_save o tan fa.st
      have hTAbsel := find_account_bsel o tan fa.st
      generalize hTA : find_account o tan fa.st = ta at *
      rcases hta : ta.val with e | toAcc
      · simp only [hta] at hok
        obtain ⟨r, hr⟩ := hok
        exact Except.noConfusion hr
      · simp only [hta] at hok ⊢
        rcases htid : Doc.get toAcc "_id" with _ | taid
        · simp only [htid] at hok
          obtain ⟨r, hr⟩ := hok
          exact Except.noConfusion hr
        · simp only [htid] at hok ⊢
          have hFCsave := transfer_category_no_save o fcn ta.st
          have hFCbsel := transfer_category_bsel o fcn ta.st
          generalize hFC : transfer_category o fcn ta.st = fcr at *
          rcases hfcr : fcr.val with e | catId
          · simp only [hfcr] at hok
            obtain ⟨r, hr⟩ := hok
            exact Except.noConfusion hr
          · simp only [hfcr] at hok ⊢
            have hb : fcr.st.budget_selector = st.budget_selector := by
              rw [hFCbsel, hTAbsel, hFAbsel]
            rw [hb]
            have hcondF : ((o.getDoc (get_id_transaction
                st.budget_selector (st.uuids.headD ""))).isEmpty ||
                !(Doc.containsKey (o.getDoc (get_id_transaction
                  st.budget_selector (st.uuids.headD ""))) "_id")) =
                true := by
              rw [hfrom]
              exact Bool.or_true _
            have hcondT : ((o.getDoc (get_id_transaction
                st.budget_selector (st.uuids.tail.headD ""))).isEmpty ||
                !(Doc.containsKey (o.getDoc (get_id_transaction
                  st.budget_selector (st.uuids.tail.headD ""))) "_id")) =
                true := by
              rw [hto]
              exact Bool.or_true _
            simp only [hcondF, hcondT, if_true]
            refine ⟨_, _, rfl, ?_, ?_, ?_, ?_, ?_⟩
            · simp only [savesOf_append, hFAsave, hTAsave, hFCsave]
              rfl
            · rw [attach_rev_get_other _ _ "value" rfl]
              rfl
            · rw [attach_rev_get_other _ _ "value" rfl]
              rfl
            · rw [attach_rev_get_other _ _ "transfer" rfl]
              rfl
            · rw [attach_rev_get_other _ _ "transfer" rfl]
              rfl

/-- A store with two accounts, for concrete transfer runs. -/
def twoAccountStore : Store :=
  { getDoc := fun _ => [],
    queryResp := fun sel =>
      if sel_regex sel = some "^b1_account_" ∧ sel_name sel = some "Checking"
      then
        .ok [[("_id", Val.str "b1_account_a77"),
              ("name", Val.str "Checking")]]
      else if sel_regex sel = some "^b1_account_" ∧
          sel_name sel = some "Savings" then
        .ok [[("_id", Val.str "b1_account_a88"),
              ("name", Val.str "Savings")]]
      else .ok [],
    insertResp := fun d => d,
    saveResp := fun d => d }

theorem save_transfer_symmetry_witness :
    ∃ fd td,
      (save_transfer twoAccountStore "Checking" "Savings" 500 "2020-01-01"
        Val.null none emptySt).val =
        .ok (some (twoAccountStore.saveResp fd),
             some (twoAccountStore.saveResp td)) ∧
      savesOf (save_transfer twoAccountStore "Checking" "Savings" 500
        "2020-01-01" Val.null none emptySt).effs =
        [Effect.save fd, Effect.save td] ∧
      Doc.get fd "value" = some (Val.num (-1 * 500)) ∧
      Doc.get td "value" = some (Val.num 500) ∧
      Doc.get fd "transfer" = some (Val.str "u2") ∧
      Doc.get td "transfer" = some (Val.str "u1") :=
  save_transfer_symmetry twoAccountStore "Checking" "Savings" 500
    "2020-01-01" Val.null none emptySt rfl rfl ⟨_, rfl⟩

/-- A structured split line: value, category name, memo, payee name (the
docstring's `[value, category_name, memo, payee_name]`). -/
def mkLine (v : Val) (cn : String) (m : Val) (pn : String) : Doc :=
  [("value", v), ("category_name", Val.str cn),
   ("memo", m), ("payee_name", Val.str pn)]

/-- The resolved id pair each split line must end up holding: starting
from the given session state, resolve — in input order, threading the
state — each line's category name (via `find_category`) and then its payee
name (via `get_or_create_payee`), and collect the `_id` fields of the
returned documents.  This is a deterministic function of the store, the
line names, and the state at loop entry, so it pins the ids the lines'
`category`/`payee` fields must hold; it is `none` when some resolution
fails or returns a document without an `_id`. -/
def resolvedIdsFrom (o : Store) :
    List (Val × String × Val × String) → FinSt →
    Option (List (Val × Val) × FinSt)
  | [], st => some ([], st)
  | q :: rest, st =>
    let fc := find_category o q.2.1 st
    match fc.val with
    | .error _ => none
    | .ok cat =>
      match Doc.get cat "_id" with
      | none => none
      | some cid =>
        let gp := get_or_create_payee o q.2.2.2 fc.st
        match gp.val with
        | .error _ => none
        | .ok pay =>
          match Doc.get pay "_id" with
          | none => none
          | some pid =>
            match resolvedIdsFrom o rest gp.st with
            | none => none
            | some (ids, stq) => some ((cid, pid) :: ids, stq)

theorem split_parent_doc_get_splits (idt : String) (v : Int)
    (aid pid : Val) (dt : String) (m : Val) (lines : List Doc) :
    Doc.get (split_parent_doc idt v aid pid dt m lines) "splits" =
      some (Val.arr (lines.map Val.obj)) := rfl

theorem resolve_line_mk (o : Store) (v : Val) (cn : String) (m : Val)
    (pn : String) (st : FinSt) (t2 : Doc)
    (h : (resolve_line o (mkLine v cn m pn) st).val = .ok t2) :
    ∃ cat cid pay pid,
      (find_category o cn st).val = .ok cat ∧
      Doc.get cat "_id" = some cid ∧
      (get_or_create_payee o pn (find_category o cn st).st).val =
        .ok pay ∧
      Doc.get pay "_id" = some pid ∧
      t2 = [("value", v), ("memo", m), ("category", cid),
            ("payee", pid)] ∧
      (resolve_line o (mkLine v cn m pn) st).st =
        (get_or_create_payee o pn (find_category o cn st).st).st := by
  have h1 : Doc.get (mkLine v cn m pn) "category_name" =
      some (Val.str cn) := rfl
  simp only [resolve_line, h1] at h ⊢
  generalize hFC : find_category o cn st = fc at *
  rcases hfc : fc.val with e | cat
  · simp only [hfc] at h
    exact Except.noConfusion h
  · simp only [hfc] at h ⊢
    rcases hcid : Doc.get cat "_id" with _ | cid
    · simp only [hcid] at h
      exact Except.noConfusion h
    · simp only [hcid] at h ⊢
      have h2 : Doc.get (Doc.set (eraseKey (mkLine v cn m pn)
          "category_name") "category" cid) "payee_name" =
          some (Val.str pn) := rfl
      simp only [h2] at h ⊢
      generalize hGP : get_or_create_payee o pn fc.st = gp at *
      rcases hgp : gp.val with e | pay
      · simp only [hgp] at h
        exact Except.noConfusion h
      · simp only [hgp] at h ⊢
        rcases hpid : Doc.get pay "_id" with _ | pid
        · simp only [hpid] at h
          exact Except.noConfusion h
        · simp only [hpid, Except.ok.injEq] at h ⊢
          refine ⟨cat, cid, pay, pid, ?_, hcid, ?_, hpid, ?_, ?_⟩
          · trivial
          · trivial
          · rw [← h]
            rfl
          · trivial

theorem resolve_lines_mk (o : Store)
    (ls : List (Val × String × Val × String)) :
    ∀ (st : FinSt) (ts2 : List Doc),
      (resolve_lines o
        (ls.map (fun q => mkLine q.1 q.2.1 q.2.2.1 q.2.2.2)) st).val =
        .ok ts2 →
      ∃ ids,
        resolvedIdsFrom o ls st =
          some (ids, (resolve_lines o
            (ls.map (fun q => mkLine q.1 q.2.1 q.2.2.1 q.2.2.2))
            st).st) ∧
        ids.length = ls.length ∧
        ts2 = (ls.zip ids).map (fun p =>
          [("value", p.1.1), ("memo", p.1.2.2.1),
           ("category", p.2.1), ("payee", p.2.2)]) := by
  induction ls with
  | nil =>
    intro st ts2 h
    simp only [List.map_nil, resolve_lines, Except.ok.injEq] at h
    refine ⟨[], rfl, rfl, ?_⟩
    rw [← h]
    rfl
  | cons q rest ih =>
    intro st ts2 h
    simp only [List.map_cons, resolve_lines] at h ⊢
    rcases hrl : (resolve_line o (mkLine q.1 q.2.1 q.2.2.1 q.2.2.2)
        st).val with e | t2
    · simp only [hrl] at h
      exact Except.noConfusion h
    · simp only [hrl] at h ⊢
      rcases hrs : (resolve_lines o
          (rest.map (fun q => mkLine q.1 q.2.1 q.2.2.1 q.2.2.2))
          (resolve_line o (mkLine q.1 q.2.1 q.2.2.1 q.2.2.2) st).st).val
          with e | rest2
      · simp only [hrs] at h
        exact Except.noConfusion h
      · simp only [hrs, Except.ok.injEq] at h ⊢
        obtain ⟨cat, cid, pay, pid, hfc, hcid, hgp, hpid, ht2, hst⟩ :=
          resolve_line_mk o q.1 q.2.1 q.2.2.1 q.2.2.2 st t2 hrl
        obtain ⟨ids, hids, hlen, hts⟩ := ih
          (resolve_line o (mkLine q.1 q.2.1 q.2.2.1 q.2.2.2) st).st
          rest2 hrs
        refine ⟨(cid, pid) :: ids, ?_, ?_, ?_⟩
        · simp only [resolvedIdsFrom, hfc, hcid, hgp, hpid]
          rw [← hst, hids]
        · simp only [List.length_cons, hlen]
        · rw [← h, ht2, hts]
          rfl

theorem resolve_line_no_save (o : Store) (t : Doc) (st : FinSt) :
    savesOf (resolve_line o t st).effs = [] := by
  simp only [resolve_line]
  repeat' split
  all_goals first
    | rfl
    | exact find_category_no_save o _ st
    | (rw [savesOf_append, find_category_no_save,
        get_or_create_payee_no_save]
       rfl)

theorem resolve_line_bsel (o : Store) (t : Doc) (st : FinSt) :
    (resolve_line o t st).st.budget_selector = st.budget_selector := by
  simp only [resolve_line]
  repeat' split
  all_goals first
    | rfl
    | exact find_category_bsel o _ st
    | (rw [show (get_or_create_payee o _
        (find_category o _ st).st).st.budget_selector =
        (get_or_create_payee o _
          (find_category o _ st).st).st.budget_selector from rfl,
        get_or_create_payee_bsel, find_category_bsel])

theorem resolve_lines_no_save (o : Store) (ts : List Doc) :
    ∀ st : FinSt, savesOf (resolve_lines o ts st).effs = [] := by
  induction ts with
  | nil => intro st; rfl
  | cons t rest ih =>
    intro st
    simp only [resolve_lines]
    rcases hrl : (resolve_line o t st).val with e | t2
    · simp only [hrl]
      exact resolve_line_no_save o t st
    · simp only [hrl]
      rcases hrs : (resolve_lines o rest (resolve_line o t st).st).val
        with e | ts2
      · simp only [hrs]
        rw [savesOf_append, resolve_line_no_save, ih]
        rfl
      · simp only [hrs]
        rw [savesOf_append, resolve_line_no_save, ih]
        rfl

theorem resolve_lines_bsel (o : Store) (ts : List Doc) :
    ∀ st : FinSt,
      (resolve_lines o ts st).st.budget_selector = st.budget_selector := by
  induction ts with
  | nil => intro st; rfl
  | cons t rest ih =>
    intro st
    simp only [resolve_lines]
    rcases hrl : (resolve_line o t st).val with e | t2
    · simp only [hrl]
      exact resolve_line_bsel o t st
    · simp only [hrl]
      rcases hrs : (resolve_lines o rest (resolve_line o t st).st).val
        with e | ts2
      · simp only [hrs]
        have hih := ih (resolve_line o t st).st
        rw [resolve_line_bsel] at hih
        exact hih
      · simp only [hrs]
        have hih := ih (resolve_line o t st).st
        rw [resolve_line_bsel] at hih
        exact hih

/-- Claim C8: when the parent existence probe reports absence and the call
succeeds, `save_split` performs exactly one save, of a parent document
whose `category` is the literal sentinel `split` and whose `splits` array
is the input line list in input order with each line's `category_name` /
`payee_name` replaced by `category` / `payee` fields holding resolved ids,
value and memo unchanged. -/
theorem save_split_builds_split_doc :
    ∀ (o : Store) (an : String) (v : Int) (dt pn : String) (m : Val)
      (ls : List (Val × String × Val × String)) (st : FinSt),
      Doc.containsKey (o.getDoc (get_id_transaction st.budget_selector
        (st.uuids.headD ""))) "_id" = false →
      (∃ r, (save_split o an v dt pn m
        (ls.map (fun q => mkLine q.1 q.2.1 q.2.2.1 q.2.2.2)) st).val =
        .ok r) →
      ∃ d ids st2,
        (save_split o an v dt pn m
          (ls.map (fun q => mkLine q.1 q.2.1 q.2.2.1 q.2.2.2)) st).val =
          .ok (some (o.saveResp d)) ∧
        savesOf (save_split o an v dt pn m
          (ls.map (fun q => mkLine q.1 q.2.1 q.2.2.1 q.2.2.2)) st).effs =
          [Effect.save d] ∧
        Doc.get d "category" = some (Val.str "split") ∧
        resolvedIdsFrom o ls
          (get_or_create_payee o pn
            (find_account o an { st with uuids := st.uuids.tail }).st).st =
          some (ids, st2) ∧
        ids.length = ls.length ∧
        Doc.get d "splits" = some (Val.arr ((ls.zip ids).map (fun p =>
          Val.obj [("value", p.1.1), ("memo", p.1.2.2.1),
                   ("category", p.2.1), ("payee", p.2.2)]))) := by
  intro o an v dt pn m ls st hprobe hok
  have hFAsave := find_account_no_save o an
    { st with uuids := st.uuids.tail }
  have hFAbsel := find_account_bsel o an
    { st with uuids := st.uuids.tail }
  simp only [save_split] at hok ⊢
  generalize hFA : find_account o an { st with uuids := st.uuids.tail }
    = fa at *
  rcases hfa : fa.val with e | acc
  · simp only [hfa] at hok
    obtain ⟨r, hr⟩ := hok
    exact Except.noConfusion hr
  · simp only [hfa] at hok ⊢
    rcases hid : Doc.get acc "_id" with _ | aid
    · simp only [hid] at hok
      obtain ⟨r, hr⟩ := hok
      exact Except.noConfusion hr
    · simp only [hid] at hok ⊢
      have hGPsave := get_or_create_payee_no_save o pn fa.st
      have hGPbsel := get_or_create_payee_bsel o pn fa.st
      generalize hGP : get_or_create_payee o pn fa.st = gp at *
      rcases hgp : gp.val with e | pay
      · simp only [hgp] at hok
        obtain ⟨r, hr⟩ := hok
        exact Except.noConfusion hr
      · simp only [hgp] at hok ⊢
        rcases hpid : Doc.get pay "_id" with _ | pid
        · simp only [hpid] at hok
          obtain ⟨r, hr⟩ := hok
          exact Except.noConfusion hr
        · simp only [hpid] at hok ⊢
          have hRSsave := resolve_lines_no_save o
            (ls.map (fun q => mkLine q.1 q.2.1 q.2.2.1 q.2.2.2)) gp.st
          generalize hRS : resolve_lines o
            (ls.map (fun q => mkLine q.1 q.2.1 q.2.2.1 q.2.2.2)) gp.st
            = rs at *
          rcases hrs : rs.val with e | ts2
          · simp only [hrs] at hok
            obtain ⟨r, hr⟩ := hok
            exact Except.noConfusion hr
          · simp only [hrs] at hok ⊢
            have hb : gp.st.budget_selector = st.budget_selector := by
              rw [hGPbsel, hFAbsel]
            rw [hb]
            have hcond : ((o.getDoc (get_id_transaction
                st.budget_selector (st.uuids.headD ""))).isEmpty ||
                !(Doc.containsKey (o.getDoc (get_id_transaction
                  st.budget_selector (st.uuids.headD ""))) "_id")) =
                true := by
              rw [hprobe]
              exact Bool.or_true _
            simp only [hcond, if_true]
            obtain ⟨ids, hids, hlen, hts⟩ :=
              resolve_lines_mk o ls gp.st ts2 (by rw [hRS]; exact hrs)
            rw [hRS] at hids
            refine ⟨_, ids, rs.st, rfl, ?_, ?_, hids, hlen, ?_⟩
            · simp only [savesOf_append, hFAsave, hGPsave, hRSsave]
              rfl
            · rw [attach_rev_get_other _ _ "category" rfl]
              rfl
            · rw [attach_rev_get_other _ _ "splits" rfl,
                split_parent_doc_get_splits, hts, List.map_map]
              rfl

theorem save_split_builds_split_doc_witness :
    ∃ d ids st2,
      (save_split oneOfEachStore "Checking" 400 "2020-01-01" "NewGuy"
        (Val.str "memo")
        [mkLine (Val.num 250) "Groceries" (Val.str "l1") "Store"]
        emptySt).val = .ok (some (oneOfEachStore.saveResp d)) ∧
      savesOf (save_split oneOfEachStore "Checking" 400 "2020-01-01"
        "NewGuy" (Val.str "memo")
        [mkLine (Val.num 250) "Groceries" (Val.str "l1") "Store"]
        emptySt).effs = [Effect.save d] ∧
      Doc.get d "category" = some (Val.str "split") ∧
      resolvedIdsFrom oneOfEachStore
        [(Val.num 250, "Groceries", Val.str "l1", "Store")]
        (get_or_create_payee oneOfEachStore "NewGuy"
          (find_account oneOfEachStore "Checking"
            { emptySt with uuids := emptySt.uuids.tail }).st).st =
        some (ids, st2) ∧
      ids.length =
        [(Val.num 250, "Groceries", Val.str "l1", "Store")].length ∧
      Doc.get d "splits" = some (Val.arr
        (([(Val.num 250, "Groceries", Val.str "l1", "Store")].zip
          ids).map (fun p =>
          Val.obj [("value", p.1.1), ("memo", p.1.2.2.1),
                   ("category", p.2.1), ("payee", p.2.2)]))) :=
  save_split_builds_split_doc oneOfEachStore "Checking" 400 "2020-01-01"
    "NewGuy" (Val.str "memo")
    [(Val.num 250, "Groceries", Val.str "l1", "Store")] emptySt rfl
    ⟨_, rfl⟩

theorem find_account_congr (o o2 : Store)
    (hq : o2.queryResp = o.queryResp) :
    ∀ (n : String) (st : FinSt),
      find_account o2 n st = find_account o n st := by
  intro n st
  simp only [find_account, hq]

theorem find_category_congr (o o2 : Store)
    (hq : o2.queryResp = o.queryResp) :
    ∀ (n : String) (st : FinSt),
      find_category o2 n st = find_category o n st := by
  intro n st
  simp only [find_category, hq]

theorem find_payee_congr (o o2 : Store)
    (hq : o2.queryResp = o.queryResp) :
    ∀ (n : String) (st : FinSt),
      find_payee o2 n st = find_payee o n st := by
  intro n st
  simp only [find_payee, hq]

theorem insert_payee_congr (o o2 : Store)
    (hi : o2.insertResp = o.insertResp) :
    ∀ (n : String) (st : FinSt),
      insert_payee o2 n st = insert_payee o n st := by
  intro n st
  simp only [insert_payee, hi]

theorem get_or_create_payee_congr (o o2 : Store)
    (hq : o2.queryResp = o.queryResp)
    (hi : o2.insertResp = o.insertResp) :
    ∀ (n : String) (st : FinSt),
      get_or_create_payee o2 n st = get_or_create_payee o n st := by
  intro n st
  simp only [get_or_create_payee, find_payee_congr o o2 hq,
    insert_payee_congr o o2 hi]

theorem resolve_line_congr (o o2 : Store)
    (hq : o2.queryResp = o.queryResp)
    (hi : o2.insertResp = o.insertResp) :
    ∀ (t : Doc) (st : FinSt),
      resolve_line o2 t st = resolve_line o t st := by
  intro t st
  simp only [resolve_line, find_category_congr o o2 hq,
    get_or_create_payee_congr o o2 hq hi]

theorem resolve_lines_congr (o o2 : Store)
    (hq : o2.queryResp = o.queryResp)
    (hi : o2.insertResp = o.insertResp) :
    ∀ (ts : List Doc) (st : FinSt),
      resolve_lines o2 ts st = resolve_lines o ts st := by
  intro ts
  induction ts with
  | nil => intro st; rfl
  | cons t rest ih =>
    intro st
    simp only [resolve_lines, resolve_line_congr o o2 hq hi, ih]

/-- Claim C10: `save_split` runs its per-line resolution loop before it
consults the existence probe, so the skip path keeps all resolution side
effects.  Formally: compare a run against a store `o` whose probe reports
absence with a run against a store `o2` that answers queries and inserts
identically but whose probe reports presence.  The two runs end in the same
session state (same cache updates), the skip run issues no save but
performs exactly the effects of the write run minus its single save, and it
returns `None` whenever the write run returns a save acknowledgement. -/
theorem save_split_skip_keeps_side_effects :
    ∀ (o o2 : Store) (an : String) (v : Int) (dt pn : String) (m : Val)
      (ts : List Doc) (st : FinSt),
      o2.queryResp = o.queryResp →
      o2.insertResp = o.insertResp →
      Doc.containsKey (o.getDoc (get_id_transaction st.budget_selector
        (st.uuids.headD ""))) "_id" = false →
      Doc.containsKey (o2.getDoc (get_id_transaction st.budget_selector
        (st.uuids.headD ""))) "_id" = true →
      (save_split o2 an v dt pn m ts st).st =
        (save_split o an v dt pn m ts st).st ∧
      savesOf (save_split o2 an v dt pn m ts st).effs = [] ∧
      (∀ e, (save_split o an v dt pn m ts st).val = .error e →
        (save_split o2 an v dt pn m ts st).val = .error e ∧
        (save_split o2 an v dt pn m ts st).effs =
          (save_split o an v dt pn m ts st).effs) ∧
      (∀ r, (save_split o an v dt pn m ts st).val = .ok r →
        (save_split o2 an v dt pn m ts st).val = .ok none ∧
        ∃ d, (save_split o an v dt pn m ts st).effs =
          (save_split o2 an v dt pn m ts st).effs ++ [Effect.save d]) := by
  intro o o2 an v dt pn m ts st hq hi habs hpres
  have hFAsave := find_account_no_save o an
    { st with uuids := st.uuids.tail }
  have hFAbsel := find_account_bsel o an
    { st with uuids := st.uuids.tail }
  simp only [save_split, find_account_congr o o2 hq,
    get_or_create_payee_congr o o2 hq hi, resolve_lines_congr o o2 hq hi]
  generalize hFA : find_account o an { st with uuids := st.uuids.tail }
    = fa at *
  rcases hfa : fa.val with e | acc
  · simp only [hfa]
    exact ⟨trivial, hFAsave, fun e2 he => ⟨he, trivial⟩,
      fun r hr => Except.noConfusion hr⟩
  · simp only [hfa]
    rcases hid : Doc.get acc "_id" with _ | aid
    · simp only [hid]
      exact ⟨trivial, hFAsave, fun e2 he => ⟨he, trivial⟩,
        fun r hr => Except.noConfusion hr⟩
    · simp only [hid]
      have hGPsave := get_or_create_payee_no_save o pn fa.st
      have hGPbsel := get_or_create_payee_bsel o pn fa.st
      generalize hGP : get_or_create_payee o pn fa.st = gp at *
      rcases hgp : gp.val with e | pay
      · simp only [hgp]
        refine ⟨trivial, ?_, fun e2 he => ⟨he, trivial⟩,
          fun r hr => Except.noConfusion hr⟩
        rw [savesOf_append, hFAsave, hGPsave]
        rfl
      · simp only [hgp]
        rcases hpid : Doc.get pay "_id" with _ | pid
        · simp only [hpid]
          refine ⟨trivial, ?_, fun e2 he => ⟨he, trivial⟩,
            fun r hr => Except.noConfusion hr⟩
          rw [savesOf_append, hFAsave, hGPsave]
          rfl
        · simp only [hpid]
          have hRSsave := resolve_lines_no_save o ts gp.st
          generalize hRS : resolve_lines o ts gp.st = rs at *
          rcases hrs : rs.val with e | ts2
          · simp only [hrs]
            refine ⟨trivial, ?_, fun e2 he => ⟨he, trivial⟩,
              fun r hr => Except.noConfusion hr⟩
            simp only [savesOf_append, hFAsave, hGPsave, hRSsave]
            rfl
          · simp only [hrs]
            have hb : gp.st.budget_selector = st.budget_selector := by
              rw [hGPbsel, hFAbsel]
            rw [hb]
            have hcondO : ((o.getDoc (get_id_transaction
                st.budget_selector (st.uuids.headD ""))).isEmpty ||
                !(Doc.containsKey (o.getDoc (get_id_transaction
                  st.budget_selector (st.uuids.headD ""))) "_id")) =
                true := by
              rw [habs]
              exact Bool.or_true _
            have hcondP : ((o2.getDoc (get_id_transaction
                st.budget_selector (st.uuids.headD ""))).isEmpty ||
                !(Doc.containsKey (o2.getDoc (get_id_transaction
                  st.budget_selector (st.uuids.headD ""))) "_id")) =
                false := by
              rw [hpres, containsKey_not_isEmpty _ _ hpres]
              rfl
            simp only [hcondO, hcondP, if_true, Bool.false_eq_true,
              if_false]
            refine ⟨trivial, ?_, fun e2 he => Except.noConfusion he, ?_⟩
            · simp only [savesOf_append, hFAsave, hGPsave, hRSsave]
              rfl
            · intro r hr
              exact ⟨trivial, ⟨_, rfl⟩⟩

theorem save_split_skip_keeps_side_effects_witness :
    (save_split skipPathStore "Checking" 400 "2020-01-01" "NewGuy"
      (Val.str "memo")
      [mkLine (Val.num 250) "Groceries" (Val.str "l1") "Store"]
      emptySt).st =
      (save_split oneOfEachStore "Checking" 400 "2020-01-01" "NewGuy"
        (Val.str "memo")
        [mkLine (Val.num 250) "Groceries" (Val.str "l1") "Store"]
        emptySt).st ∧
    savesOf (save_split skipPathStore "Checking" 400 "2020-01-01" "NewGuy"
      (Val.str "memo")
      [mkLine (Val.num 250) "Groceries" (Val.str "l1") "Store"]
      emptySt).effs = [] ∧
    (∀ e, (save_split oneOfEachStore "Checking" 400 "2020-01-01" "NewGuy"
      (Val.str "memo")
      [mkLine (Val.num 250) "Groceries" (Val.str "l1") "Store"]
      emptySt).val = .error e →
      (save_split skipPathStore "Checking" 400 "2020-01-01" "NewGuy"
        (Val.str "memo")
        [mkLine (Val.num 250) "Groceries" (Val.str "l1") "Store"]
        emptySt).val = .error e ∧
      (save_split skipPathStore "Checking" 400 "2020-01-01" "NewGuy"
        (Val.str "memo")
        [mkLine (Val.num 250) "Groceries" (Val.str "l1") "Store"]
        emptySt).effs =
        (save_split oneOfEachStore "Checking" 400 "2020-01-01" "NewGuy"
          (Val.str "memo")
          [mkLine (Val.num 250) "Groceries" (Val.str "l1") "Store"]
          emptySt).effs) ∧
    (∀ r, (save_split oneOfEachStore "Checking" 400 "2020-01-01" "NewGuy"
      (Val.str "memo")
      [mkLine (Val.num 250) "Groceries" (Val.str "l1") "Store"]
      emptySt).val = .ok r →
      (save_split skipPathStore "Checking" 400 "2020-01-01" "NewGuy"
        (Val.str "memo")
        [mkLine (Val.num 250) "Groceries" (Val.str "l1") "Store"]
        emptySt).val = .ok none ∧
      ∃ d, (save_split oneOfEachStore "Checking" 400 "2020-01-01" "NewGuy"
        (Val.str "memo")
        [mkLine (Val.num 250) "Groceries" (Val.str "l1") "Store"]
        emptySt).effs =
        (save_split skipPathStore "Checking" 400 "2020-01-01" "NewGuy"
          (Val.str "memo")
          [mkLine (Val.num 250) "Groceries" (Val.str "l1") "Store"]
          emptySt).effs ++ [Effect.save d]) :=
  save_split_skip_keeps_side_effects oneOfEachStore skipPathStore
    "Checking" 400 "2020-01-01" "NewGuy" (Val.str "memo")
    [mkLine (Val.num 250) "Groceries" (Val.str "l1") "Store"]
    emptySt rfl rfl rfl rfl

end PyFinancier
